import Mathlib

/-!
Verification of the detection-rendering logic of the notebook
"7.5 Deep Learning methods for object detection".

The notebook loads a COCO class-name file, builds a per-class color table,
runs an SSD network (opaque external call), and renders the detections that
pass a confidence threshold onto a copy of the input image.  The definitions
below embed the first-party logic of that notebook: the registry loader
(`loadClassNames`, `mkColors`) and the rendering loop (`renderCell` and its
pieces).  Machine floats are modelled as rationals; Python `int()` truncation
and Python negative list indexing are modelled explicitly.
-/

namespace ObjDet

/-- A display color: one 3-channel value, as produced by
`np.random.uniform(0, 255, size=(n, 3))` (one row of the `COLORS` array). -/
abbrev Color := ℚ × ℚ × ℚ

/-- An image: height/width as reported by `image.shape`, plus pixel rows. -/
structure Image where
  width : ℕ
  height : ℕ
  data : List (List Color)
deriving DecidableEq

/-- `image.copy()`: a value copy of the image (same pixel data). -/
def Image.copy (im : Image) : Image := im

/-- One row of the network output tensor `output[0, 0, :, :]`, the 7-tuple
`(unused, category_id, confidence, x_min_norm, y_min_norm, x_max_norm,
y_max_norm)`.  The `confidence` component models the placeholder
`confidence = None` filled per the spec (score at index 2). -/
structure Detection where
  unused : ℚ
  category_id : ℚ
  confidence : ℚ
  x_min_norm : ℚ
  y_min_norm : ℚ
  x_max_norm : ℚ
  y_max_norm : ℚ
deriving DecidableEq

/-- Python `int()` on a rational: truncation toward zero. -/
def pyInt (q : ℚ) : ℤ :=
  if 0 ≤ q then ((q.num.toNat / q.den : ℕ) : ℤ)
  else -(((-q.num).toNat / q.den : ℕ) : ℤ)

/-- Python sequence indexing `l[i]`: nonnegative indices from the front,
negative indices from the back; `none` models an `IndexError`. -/
def pyIdx {α : Type} (l : List α) (i : ℤ) : Option α :=
  if 0 ≤ i then l.get? i.toNat
  else if (-i).toNat ≤ l.length then l.get? (l.length - (-i).toNat)
  else none

/-- Split a character list at every newline, keeping empty pieces, with
Python `str.split('\n')` semantics: the empty input yields `[[]]`. -/
def splitNl (cs : List Char) : List (List Char) :=
  match cs with
  | [] => [[]]
  | c :: rest =>
      match splitNl rest, decide (c = Char.ofNat 10) with
      | r, true => [] :: r
      | [], false => [[c]]
      | h :: t, false => (c :: h) :: t

/-- The registry loader body `class_names = f.read().split('\n')` applied to
the file content: Python `str.split` on a single separator keeps empty
pieces, and returns `[""]` on the empty string. -/
def loadClassNames (content : String) : List String :=
  (splitNl content.toList).map (fun l => String.mk l)

/-- The color table `COLORS = np.random.uniform(0, 255, size=(n, 3))`,
with `sample i j` the stream of pseudo-random draws (row `i`, channel `j`),
each uniform on `[0, 255)`. -/
def mkColors (sample : ℕ → ℕ → ℚ) (n : ℕ) : List Color :=
  (List.range n).map (fun i => (sample i 0, sample i 1, sample i 2))

/-- The name lookup `class_names[int(class_id) - 1]` with
`class_id = detection[1]`. -/
def classNameOf (names : List String) (d : Detection) : Option String :=
  pyIdx names (pyInt d.category_id - 1)

/-- The color lookup `COLORS[int(class_id)]` with `class_id = detection[1]`. -/
def colorOf (colors : List Color) (d : Detection) : Option Color :=
  pyIdx colors (pyInt d.category_id)

/-- The separator between the category name and the confidence in a label. -/
def sepColon : String := ": "

/-- Modelled from the spec: the placeholder `text = None` is filled with a
label of the form `"<category_name>: <confidence formatted to a fixed
precision>"`; the fixed precision is modelled as an integer percentage. -/
def labelText (name : String) (conf : ℚ) : String :=
  name ++ sepColon ++ toString (pyInt (conf * 100))

/-- Whether `sub` occurs as a contiguous substring of `s` (decidable,
used to state "the label contains a given name"). -/
def strContainsB (s sub : String) : Bool :=
  (List.range (s.toList.length + 1)).any
    (fun i => sub.toList.isPrefixOf (s.toList.drop i))

/-- Apply a position-dependent update to every pixel of a pixel grid. -/
def mapPix (d : List (List Color)) (f : ℕ → ℕ → Color → Color) :
    List (List Color) :=
  List.zipWith
    (fun r row => List.zipWith (fun c px => f r c px) (List.range row.length) row)
    (List.range d.length) d

/-- Whether pixel `(r, c)` (row, column) lies on the outline band of stroke
width `t` of the axis-aligned rectangle with corners `(x1, y1)`–`(x2, y2)`. -/
def onRectBorder (x1 y1 x2 y2 t : ℤ) (r c : ℕ) : Bool :=
  decide (x1 ≤ (c : ℤ)) && decide ((c : ℤ) ≤ x2) &&
  decide (y1 ≤ (r : ℤ)) && decide ((r : ℤ) ≤ y2) &&
  (decide ((c : ℤ) < x1 + t) || decide (x2 - t < (c : ℤ)) ||
   decide ((r : ℤ) < y1 + t) || decide (y2 - t < (r : ℤ)))

/-- Model of `cv2.rectangle(im, (x1, y1), (x2, y2), col, thickness=t)`:
paints the rectangle outline (band of width `t`, clipped to the image) in
color `col`, returning the new image. -/
def drawRect (im : Image) (x1 y1 x2 y2 : ℤ) (col : Color) (t : ℤ) : Image :=
  ⟨im.width, im.height,
   mapPix im.data
     (fun r c px => if onRectBorder x1 y1 x2 y2 t r c then col else px)⟩

/-- Whether pixel `(r, c)` lies in the glyph box of a text of `len`
characters anchored at `(x, y)`. -/
def inTextBox (x y : ℤ) (len : ℕ) (r c : ℕ) : Bool :=
  decide (x ≤ (c : ℤ)) && decide ((c : ℤ) < x + 16 * (len : ℤ)) &&
  decide (y - 24 ≤ (r : ℤ)) && decide ((r : ℤ) ≤ y)

/-- Model of `cv2.putText(im, text, (x, y), font, 1, col, 2)`: paints a
deterministic glyph box for `text` at `(x, y)` in color `col`. -/
def drawText (im : Image) (text : String) (x y : ℤ) (col : Color) : Image :=
  ⟨im.width, im.height,
   mapPix im.data
     (fun r c px => if inTextBox x y text.length r c then col else px)⟩

/-- Modelled from the spec: the placeholders `box_x_ul = None`, ...,
`box_y_br = None` are filled with the scaling stated in the notebook text
and the spec, `x_ul = x_min_norm * W`, `y_ul = y_min_norm * H`,
`x_br = x_max_norm * W`, `y_br = y_max_norm * H`; the `int()` conversions
are the ones applied at the `cv2.rectangle` call. -/
def rectCorners (W H : ℕ) (d : Detection) : ℤ × ℤ × ℤ × ℤ :=
  (pyInt (d.x_min_norm * W), pyInt (d.y_min_norm * H),
   pyInt (d.x_max_norm * W), pyInt (d.y_max_norm * H))

/-- The body of the `if confidence > threshold` branch: look up name and
color, scale the box, draw the rectangle, then draw the label text at
`(int(box_x_ul + 2), int(box_y_ul + 30))`.  An out-of-range lookup
(a Python `IndexError`) yields `none`. -/
def drawDetection (names : List String) (colors : List Color) (W H : ℕ)
    (im : Image) (d : Detection) : Option Image :=
  (classNameOf names d).bind (fun cn =>
    (colorOf colors d).bind (fun col =>
      let x_ul : ℚ := d.x_min_norm * W
      let y_ul : ℚ := d.y_min_norm * H
      let x_br : ℚ := d.x_max_norm * W
      let y_br : ℚ := d.y_max_norm * H
      let boxed := drawRect im (pyInt x_ul) (pyInt y_ul) (pyInt x_br)
        (pyInt y_br) col 2
      some (drawText boxed (labelText cn d.confidence)
        (pyInt (x_ul + 2)) (pyInt (y_ul + 30)) col)))

/-- One iteration of the detection loop on the working image: draw only if
the detection confidence is strictly above the threshold, else skip the
record entirely. -/
def processDetection (names : List String) (colors : List Color) (W H : ℕ)
    (t : ℚ) (im : Image) (d : Detection) : Option Image :=
  if t < d.confidence then drawDetection names colors W H im d else some im

/-- The state of the rendering cell: the input `image` and the working copy
`image_copy` that all drawing targets. -/
structure RenderState where
  image : Image
  image_copy : Image
deriving DecidableEq

/-- One iteration of the rendering cell loop: the drawing calls mutate only
the `image_copy` component of the state. -/
def renderCellStep (names : List String) (colors : List Color) (W H : ℕ)
    (t : ℚ) (s : RenderState) (d : Detection) : Option RenderState :=
  (processDetection names colors W H t s.image_copy d).map
    (fun ic => { s with image_copy := ic })

/-- The rendering cell: `image_copy = image.copy()`, then the loop
`for detection in output[0, 0, :, :]` with `W`/`H` taken from
`image.shape`. -/
def renderCell (image : Image) (ds : List Detection) (names : List String)
    (colors : List Color) (t : ℚ) : Option RenderState :=
  ds.foldlM (renderCellStep names colors image.width image.height t)
    ⟨image, Image.copy image⟩

/-- The annotated image produced by the rendering cell. -/
def renderDetections (image : Image) (ds : List Detection)
    (names : List String) (colors : List Color) (t : ℚ) : Option Image :=
  (renderCell image ds names colors t).map RenderState.image_copy

/-- The number of detections for which the loop enters its drawing branch
(one rectangle per record whose confidence is strictly above `t`). -/
def renderedBoxCount (ds : List Detection) (t : ℚ) : ℕ :=
  (ds.filter (fun d => decide (t < d.confidence))).length

/-! ### Concrete inputs used by witnesses and counterexamples -/

/-- A small concrete image. -/
def img0 : Image := ⟨8, 8, [[(0, 0, 0), (1, 1, 1)], [(2, 2, 2), (3, 3, 3)]]⟩

/-- A small concrete registry name list. -/
def namesAB : List String := ["alpha", "beta"]

/-- A small concrete color table. -/
def colorsAB : List Color := [(1, 2, 3), (4, 5, 6)]

/-- A concrete detection with confidence 0. -/
def dLow : Detection := ⟨0, 1, 0, 0, 0, 1, 1⟩

/-- A concrete detection with confidence exactly one half. -/
def dMid : Detection := ⟨0, 1, 1/2, 0, 0, 1, 1⟩

/-- A concrete detection with confidence nine tenths. -/
def dHigh : Detection := ⟨0, 1, 9/10, 0, 0, 1, 1⟩

/-- A concrete three-name registry. -/
def namesXYZ : List String := ["ex", "wy", "zed"]

/-- A concrete detection whose category id is 0. -/
def dZero : Detection := ⟨0, 0, 3/4, 0, 0, 1, 1⟩

/-- A newline, the separator of the registry file format. -/
def nlString : String := "\n"

/-- The lines of a concrete registry file whose 0-indexed line 51 is
`"banana"` and whose 0-indexed line 52 is `"apple"`, as in the COCO class
file used by the notebook. -/
def cexList : List String :=
  (List.range 51).map (fun _ => "thing") ++ ["banana", "apple"]

/-- The content of that concrete registry file. -/
def cexContent : String := String.intercalate nlString cexList

/-- A concrete color table with 60 pairwise distinct colors; the color at
index `i` is `(i, 0, 0)`. -/
def cexColors : List Color := (List.range 60).map (fun i => ((i : ℚ), 0, 0))

/-- A concrete detection with category id 52 and confidence nine tenths. -/
def dApple52 : Detection := ⟨0, 52, 9/10, 0, 0, 1, 1⟩

/-- A concrete detection with category id 53 and confidence nine tenths. -/
def dApple53 : Detection := ⟨0, 53, 9/10, 0, 0, 1, 1⟩

/-- A concrete 8 by 8 image (pixel payload irrelevant to the corners). -/
def imTiny : Image := ⟨8, 8, []⟩

/-- A concrete 640 by 480 image. -/
def im640 : Image := ⟨640, 480, []⟩

/-- A concrete detection with normalized box `[0.25, 0.25, 0.75, 0.75]`. -/
def dQuarter : Detection := ⟨0, 1, 9/10, 1/4, 1/4, 3/4, 3/4⟩

/-! ### Helper lemmas -/

/-- A skipped record leaves the working image unchanged. -/
lemma processDetection_of_not_lt (names : List String) (colors : List Color)
    (W H : ℕ) (t : ℚ) (im : Image) (d : Detection) (h : ¬ t < d.confidence) :
    processDetection names colors W H t im d = some im := by
  unfold processDetection
  rw [if_neg h]

/-- One loop iteration never changes the `image` component of the state. -/
lemma renderCellStep_image (names : List String) (colors : List Color)
    (W H : ℕ) (t : ℚ) (s s1 : RenderState) (d : Detection)
    (h : renderCellStep names colors W H t s d = some s1) :
    s1.image = s.image := by
  unfold renderCellStep at h
  cases hp : processDetection names colors W H t s.image_copy d with
  | none => rw [hp] at h; simp at h
  | some ic =>
      rw [hp] at h
      simp only [Option.map_some'] at h
      rw [← Option.some_inj.mp h]

/-- The whole loop never changes the `image` component of the state. -/
lemma foldl_render_image (names : List String) (colors : List Color)
    (W H : ℕ) (t : ℚ) :
    ∀ (ds : List Detection) (s0 s1 : RenderState),
      List.foldlM (renderCellStep names colors W H t) s0 ds = some s1 →
      s1.image = s0.image := by
  intro ds
  induction ds with
  | nil =>
      intro s0 s1 h
      simp only [List.foldlM_nil] at h
      rw [← Option.some_inj.mp h]
  | cons d rest ih =>
      intro s0 s1 h
      rw [List.foldlM_cons] at h
      cases hstep : renderCellStep names colors W H t s0 d with
      | none => rw [hstep] at h; simp at h
      | some s2 =>
          rw [hstep] at h
          simp only [Option.bind_eq_bind, Option.some_bind] at h
          rw [ih s2 s1 h, renderCellStep_image names colors W H t s0 s2 d hstep]

/-- If every record of the list is at or below the threshold, the loop
returns its initial state unchanged. -/
lemma foldl_render_skip (names : List String) (colors : List Color)
    (W H : ℕ) (t : ℚ) :
    ∀ (ds : List Detection), (∀ d ∈ ds, ¬ t < d.confidence) →
      ∀ s0 : RenderState,
        List.foldlM (renderCellStep names colors W H t) s0 ds = some s0 := by
  intro ds
  induction ds with
  | nil => intro _ s0; rfl
  | cons d rest ih =>
      intro hall s0
      rw [List.foldlM_cons]
      have hstep : renderCellStep names colors W H t s0 d = some s0 := by
        unfold renderCellStep
        rw [processDetection_of_not_lt names colors W H t s0.image_copy d
          (hall d (List.mem_cons_self d rest))]
        rfl
      rw [hstep]
      simp only [Option.bind_eq_bind, Option.some_bind]
      exact ih (fun x hx => hall x (List.mem_cons_of_mem d hx)) s0

/-- Filtering with a stronger predicate never keeps more elements. -/
lemma length_filter_mono {α : Type} (p q : α → Bool)
    (h : ∀ x, p x = true → q x = true) :
    ∀ l : List α, (l.filter p).length ≤ (l.filter q).length := by
  intro l
  induction l with
  | nil => simp
  | cons a tl ih =>
      simp only [List.filter_cons]
      cases hp : p a with
      | true =>
          rw [h a hp]
          simpa using ih
      | false =>
          cases hq : q a
          · simpa using ih
          · simp only [List.length_cons]
            exact le_trans ih (Nat.le_succ _)

/-! ### Claims -/

/-- C1: a record is drawn (box and label) only when its confidence is
strictly greater than the threshold; a record whose confidence is at or
below the threshold — in particular exactly equal to it — is skipped
entirely, leaving the working image unchanged. -/
theorem threshold_strict_gate (names : List String) (colors : List Color)
    (W H : ℕ) (t : ℚ) (im : Image) (d : Detection) :
    (d.confidence ≤ t → processDetection names colors W H t im d = some im) ∧
    (t < d.confidence →
      processDetection names colors W H t im d =
        drawDetection names colors W H im d) := by
  constructor
  · intro h
    exact processDetection_of_not_lt names colors W H t im d (not_lt.mpr h)
  · intro h
    unfold processDetection
    rw [if_pos h]

/-- C1 witness: at threshold one half, a confidence of exactly one half is
skipped and a confidence of nine tenths is drawn. -/
theorem threshold_strict_gate_case :
    processDetection namesAB colorsAB 8 8 (1/2) img0 dMid = some img0 ∧
    processDetection namesAB colorsAB 8 8 (1/2) img0 dHigh =
      drawDetection namesAB colorsAB 8 8 img0 dHigh :=
  ⟨(threshold_strict_gate namesAB colorsAB 8 8 (1/2) img0 dMid).1
      (by norm_num [dMid]),
   (threshold_strict_gate namesAB colorsAB 8 8 (1/2) img0 dHigh).2
      (by norm_num [dHigh])⟩

set_option maxRecDepth 100000 in
/-- C2 counterexample: with a registry loaded from a file whose 0-indexed
line 52 is `"apple"` (and line 51 `"banana"`), a detection with
category id 52 does NOT render a label containing `"apple"`: the name
lookup `names[int(class_id) - 1]` lands on line 51 and the rendered label
is built from `"banana"`. -/
theorem category_offset_cex :
    (loadClassNames cexContent).get? 52 = some "apple" ∧
    classNameOf (loadClassNames cexContent) dApple52 = some "banana" ∧
    strContainsB (labelText "banana" dApple52.confidence) "apple" = false := by
  refine ⟨by decide, by decide, ?_⟩
  simp only [dApple52]
  unfold labelText
  rw [show ((9:ℚ)/10) * 100 = 90 from by norm_num]
  decide

set_option maxRecDepth 100000 in
/-- C2 amended: the renderer maps a passing detection's category id to the
name at index `category_id - 1` of the name list but to the color at index
`category_id` of the color table (two different offset conventions); with a
registry whose 0-indexed line 52 is `"apple"`, a detection with
category id 53 renders a label containing `"apple"` (one with
category id 52 renders the line-51 name `"banana"` instead). -/
theorem category_offset_amended :
    (loadClassNames cexContent).get? 52 = some "apple" ∧
    classNameOf (loadClassNames cexContent) dApple53 = some "apple" ∧
    classNameOf (loadClassNames cexContent) dApple52 = some "banana" ∧
    colorOf cexColors dApple53 = some (53, 0, 0) ∧
    strContainsB (labelText "apple" dApple53.confidence) "apple" = true ∧
    drawDetection (loadClassNames cexContent) cexColors 8 8 imTiny dApple53 =
      some (drawText (drawRect imTiny 0 0 8 8 (53, 0, 0) 2)
        (labelText "apple" (9/10)) 2 30 (53, 0, 0)) := by
  refine ⟨by decide, by decide, by decide, by decide, ?_, ?_⟩
  · simp only [dApple53]
    unfold labelText
    rw [show ((9:ℚ)/10) * 100 = 90 from by norm_num]
    decide
  · unfold drawDetection
    rw [show classNameOf (loadClassNames cexContent) dApple53 = some "apple"
          from by decide,
        show colorOf cexColors dApple53 = some (53, 0, 0) from by decide]
    simp only [Option.some_bind]
    simp only [dApple53]
    rw [show (0:ℚ) * ((8:ℕ):ℚ) = 0 from by norm_num,
        show (1:ℚ) * ((8:ℕ):ℚ) = 8 from by norm_num,
        show (0:ℚ) + 2 = 2 from by norm_num,
        show (0:ℚ) + 30 = 30 from by norm_num,
        show pyInt (0:ℚ) = 0 from by decide,
        show pyInt (8:ℚ) = 8 from by decide,
        show pyInt (2:ℚ) = 2 from by decide,
        show pyInt (30:ℚ) = 30 from by decide]

/-- C3: for any detection list, the number of records entering the drawing
branch is monotonically non-increasing in the threshold. -/
theorem rendered_count_antitone (ds : List Detection) (t1 t2 : ℚ)
    (h : t1 ≤ t2) : renderedBoxCount ds t2 ≤ renderedBoxCount ds t1 := by
  unfold renderedBoxCount
  apply length_filter_mono
  intro d hd
  rw [decide_eq_true_eq] at hd ⊢
  exact lt_of_le_of_lt h hd

/-- C3 witness: raising the threshold from one quarter to one half does not
increase the rendered-box count on a concrete list. -/
theorem rendered_count_antitone_case :
    renderedBoxCount [dLow, dHigh] (1/2) ≤ renderedBoxCount [dLow, dHigh] (1/4) :=
  rendered_count_antitone [dLow, dHigh] (1/4) (1/2) (by norm_num)

/-- C4: the rendering cell never alters its input image: all drawing
targets the copy, and whenever the cell completes, the `image` component of
the final state is the untouched input. -/
theorem input_image_preserved (image : Image) (ds : List Detection)
    (names : List String) (colors : List Color) (t : ℚ) (s : RenderState)
    (h : renderCell image ds names colors t = some s) : s.image = image := by
  unfold renderCell at h
  exact foldl_render_image names colors image.width image.height t ds
    ⟨image, Image.copy image⟩ s h

/-- C4 witness: a concrete run of the cell leaves the input image intact. -/
theorem input_image_preserved_case :
    RenderState.image ⟨img0, img0⟩ = img0 :=
  input_image_preserved img0 [dLow] namesAB colorsAB 0 ⟨img0, img0⟩ (by decide)

/-- C5: normalized box coordinates are scaled by the image width and
height: with an image of width 640 and height 480 and a passing detection
with normalized box `[0.25, 0.25, 0.75, 0.75]`, the rendered rectangle
spans corners `(160, 120)` to `(480, 360)` (and the label sits at
`(162, 150)`). -/
theorem coordinate_scaling_example :
    rectCorners 640 480 dQuarter = (160, 120, 480, 360) ∧
    renderDetections im640 [dQuarter] namesAB colorsAB (1/2) =
      some (drawText (drawRect (Image.copy im640) 160 120 480 360 (4, 5, 6) 2)
        (labelText "alpha" (9/10)) 162 150 (4, 5, 6)) := by
  constructor
  · simp only [rectCorners, dQuarter]
    rw [show (1:ℚ)/4 * ((640:ℕ):ℚ) = 160 from by norm_num,
        show (1:ℚ)/4 * ((480:ℕ):ℚ) = 120 from by norm_num,
        show (3:ℚ)/4 * ((640:ℕ):ℚ) = 480 from by norm_num,
        show (3:ℚ)/4 * ((480:ℕ):ℚ) = 360 from by norm_num,
        show pyInt (160:ℚ) = 160 from by decide,
        show pyInt (120:ℚ) = 120 from by decide,
        show pyInt (480:ℚ) = 480 from by decide,
        show pyInt (360:ℚ) = 360 from by decide]
  · unfold renderDetections renderCell
    simp only [im640, List.foldlM_cons, List.foldlM_nil]
    unfold renderCellStep processDetection
    rw [if_pos (show (1:ℚ)/2 < dQuarter.confidence from by norm_num [dQuarter])]
    unfold drawDetection
    rw [show classNameOf namesAB dQuarter = some "alpha" from by decide,
        show colorOf colorsAB dQuarter = some (4, 5, 6) from by decide]
    simp only [Option.some_bind, dQuarter]
    rw [show (1:ℚ)/4 * ((640:ℕ):ℚ) = 160 from by norm_num,
        show (1:ℚ)/4 * ((480:ℕ):ℚ) = 120 from by norm_num,
        show (3:ℚ)/4 * ((640:ℕ):ℚ) = 480 from by norm_num,
        show (3:ℚ)/4 * ((480:ℕ):ℚ) = 360 from by norm_num,
        show (160:ℚ) + 2 = 162 from by norm_num,
        show (120:ℚ) + 30 = 150 from by norm_num,
        show pyInt (160:ℚ) = 160 from by decide,
        show pyInt (120:ℚ) = 120 from by decide,
        show pyInt (480:ℚ) = 480 from by decide,
        show pyInt (360:ℚ) = 360 from by decide,
        show pyInt (162:ℚ) = 162 from by decide,
        show pyInt (150:ℚ) = 150 from by decide]
    rfl

/-- C6: rendering is deterministic: two calls on identical inputs (same
image, detection list, registry and threshold) produce identical outputs. -/
theorem render_deterministic (image : Image) (ds : List Detection)
    (names : List String) (colors : List Color) (t : ℚ)
    (o1 o2 : Option Image)
    (h1 : renderDetections image ds names colors t = o1)
    (h2 : renderDetections image ds names colors t = o2) : o1 = o2 := by
  rw [← h1, ← h2]

/-- C6 witness: two identical concrete calls agree. -/
theorem render_deterministic_case :
    (some (Image.copy img0) : Option Image) = some (Image.copy img0) :=
  render_deterministic img0 [] namesAB colorsAB 0
    (some (Image.copy img0)) (some (Image.copy img0)) rfl rfl

/-- C7: an empty detection list, and more generally any list in which no
record's confidence exceeds the threshold, yields an output equal to an
unannotated copy of the input image. -/
theorem below_threshold_copy (image : Image) (ds : List Detection)
    (names : List String) (colors : List Color) (t : ℚ)
    (h : ∀ d ∈ ds, d.confidence ≤ t) :
    renderDetections image ds names colors t = some (Image.copy image) := by
  unfold renderDetections renderCell
  rw [foldl_render_skip names colors image.width image.height t ds
    (fun d hd => not_lt.mpr (h d hd)) ⟨image, Image.copy image⟩]
  rfl

/-- C7 witness: a single record at exactly the threshold yields the bare
copy of the input. -/
theorem below_threshold_copy_case :
    renderDetections img0 [dMid] namesAB colorsAB (1/2) =
      some (Image.copy img0) :=
  below_threshold_copy img0 [dMid] namesAB colorsAB (1/2)
    (by intro d hd; rw [List.mem_singleton] at hd; rw [hd]; norm_num [dMid])

/-- C8 counterexample: the loader applied to an empty file does NOT yield a
registry of size zero — Python `"".split('\n')` is `['']`, of length one. -/
theorem empty_file_cex : ¬ (loadClassNames "").length = 0 := by decide

/-- C8 amended: loading the registry from an empty text file yields a
registry of size one whose single name is the empty string (degenerate but
not an error), and a color table of the same size one. -/
theorem empty_file_registry_one :
    loadClassNames "" = [""] ∧
    (mkColors (fun _ _ => 0) (loadClassNames "").length).length = 1 := by
  decide

/-- C9: the color table has exactly one color per category name, and every
color is a 3-channel value with each channel in the range 0 to 255,
whenever each pseudo-random draw lies in that range. -/
theorem colors_table_invariant (sample : ℕ → ℕ → ℚ) (names : List String)
    (h : ∀ i j, 0 ≤ sample i j ∧ sample i j ≤ 255) :
    (mkColors sample names.length).length = names.length ∧
    ∀ c ∈ mkColors sample names.length,
      (0 ≤ c.1 ∧ c.1 ≤ 255) ∧ (0 ≤ c.2.1 ∧ c.2.1 ≤ 255) ∧
      (0 ≤ c.2.2 ∧ c.2.2 ≤ 255) := by
  constructor
  · unfold mkColors
    rw [List.length_map, List.length_range]
  · intro c hc
    unfold mkColors at hc
    rw [List.mem_map] at hc
    obtain ⟨i, -, rfl⟩ := hc
    exact ⟨h i 0, h i 1, h i 2⟩

/-- C9 witness: a concrete draw stream in range gives a table of the right
length with all channels in range. -/
theorem colors_table_invariant_case :
    (mkColors (fun _ _ => 7) namesAB.length).length = namesAB.length ∧
    ∀ c ∈ mkColors (fun _ _ => 7) namesAB.length,
      (0 ≤ c.1 ∧ c.1 ≤ 255) ∧ (0 ≤ c.2.1 ∧ c.2.1 ≤ 255) ∧
      (0 ≤ c.2.2 ∧ c.2.2 ≤ 255) :=
  colors_table_invariant (fun _ _ => 7) namesAB (fun _ _ => by norm_num)

/-- C10: the name lookup performs no bounds check: a category id of 0 makes
`class_names[int(class_id) - 1]` evaluate index -1, which under Python
indexing returns the last element of the name list rather than raising. -/
theorem category_zero_last_name (names : List String) (d : Detection)
    (h : d.category_id = 0) : classNameOf names d = names.getLast? := by
  unfold classNameOf
  rw [h]
  have h0 : pyInt 0 = 0 := by decide
  rw [h0]
  have h2 : (0 - 1 : ℤ) = -1 := by decide
  rw [h2]
  unfold pyIdx
  rw [if_neg (by decide)]
  have h1 : ((- (-1 : ℤ)).toNat) = 1 := by decide
  rw [h1]
  cases names with
  | nil =>
      rw [if_neg (by simp)]
      rfl
  | cons a l =>
      rw [if_pos (by simp)]
      rw [List.get?_eq_getElem?, List.getLast?_eq_getElem?]

/-- C10 witness: a concrete detection with category id 0 silently renders
the final registry entry's name. -/
theorem category_zero_last_name_case :
    classNameOf namesXYZ dZero = some "zed" := by
  rw [category_zero_last_name namesXYZ dZero rfl]
  decide

end ObjDet
